import Mathlib

/-!
Shallow embedding of the core of the `cs-jobs` in-process asynchronous job
queue (src/src/job_queue.rs, with the job store modelled from the spec where
its module is not part of the snapshot).

Modelling conventions:
* `Uuid` job ids are modelled as `Nat` (opaque identifiers compared for
  equality only).
* `u64` progression counters are modelled as `Nat`: the code only compares
  and clamps them, it never wraps, so no modular arithmetic is needed.
* Byte payloads (`Vec<u8>`) are modelled as `List Nat`.
* A routine (the user-supplied async computation) is modelled by its
  outcome, a `RoutineResult`: the byte payload it returns or the error it
  raises.
* The mpsc channel is modelled as the list of messages sent into it; the
  dispatcher receiving from the channel is modelled as walking that list,
  with the end of the list standing for a closed channel or receive error.
* Mutex/lock acquisition and OS-level thread and runtime construction are
  modelled as succeeding; where the code surfaces a fallible channel send
  (`stop`, `enqueue`) the outcome of the send is an explicit `Bool`
  parameter of the model.
* Invocations of the notification handler, admissions and completed status
  transitions of the store, and routine invocations are recorded as an
  explicit `Event` trace so that theorems can speak about what the store
  and the sink observe.
-/

namespace CsJobs

/-- Outcome of a job: `Success` or `Error` (modelled from the spec: the
`ResultStatus` type of the missing `types` module, as used by the crate's
tests). -/
inductive ResultStatus
  | success
  | error
deriving DecidableEq, Repr

/-- Status of a job record (modelled from the spec: `Pending` admitted, not
yet started; `Ready` handed to the pool; `Running`; `Finished(ResultStatus)`).
The type lives in a module missing from the snapshot; the crate's tests use
`Status::Finished(ResultStatus)`. -/
inductive Status
  | pending
  | ready
  | running
  | finished (rs : ResultStatus)
deriving DecidableEq, Repr

/-- Error kinds of the crate (the `Error` enum lives in the missing `error`
module; the constructors below are those used by `job_queue.rs` and by the
spec's error taxonomy). -/
inductive Error
  | alreadyRunning
  | notStarted
  | notStopping
  | stopped
  | missingJoinHandle
  | cannotJoinThread
  | invalidThreadPoolSize
  | cannotAccessSender (msg : String)
  | cannotAccessReceiver (msg : String)
  | cannotAccessRuntime (msg : String)
  | sendFailed
  | unknownJob
  | alreadyExists
  | notFinished
  | busy
  | illegalTransition
  | custom (msg : String)
deriving DecidableEq, Repr

/-- Type of notifications that can be sent from the job queue
(src/src/job_queue.rs lines 34-39): the enum has a single variant,
`Error(Error)`. -/
inductive Notification
  | error (e : Error)
deriving DecidableEq, Repr

/-- Outcome of a user routine when it is invoked: the payload bytes it
returns on success, or the error it raises. -/
inductive RoutineResult
  | ok (bytes : List Nat)
  | err (e : Error)
deriving DecidableEq, Repr

/-- Job descriptor: its id and its routine (modelled by the routine's
outcome). The remaining fields of the missing `job` module (private data,
expire policy) are not needed by the dispatcher code under verification. -/
structure Job where
  id : Nat
  routine : RoutineResult
deriving DecidableEq, Repr

/-- Commands handled by the thread of the job queue
(src/src/job_queue.rs lines 22-32). -/
inductive Cmd
  | setStep (id : Nat) (n : Nat)
  | setSteps (id : Nat) (n : Nat)
  | stop
deriving DecidableEq, Repr

/-- Messages sent to the job queue (src/src/job_queue.rs lines 12-19). -/
inductive Message
  | command (c : Cmd)
  | job (j : Job)
deriving DecidableEq, Repr

/-- Progression pair `(step, steps)` (modelled from the spec: defaults to
`(0, 0)`, with `step ≤ steps` as the intended invariant). -/
structure Progression where
  step : Nat
  steps : Nat
deriving DecidableEq, Repr

/-- Store-owned record of a job: descriptor, status, progression and result
bytes (modelled from the spec; creation instants and expiry deadlines are
not needed by the claims under verification). -/
structure JobRecord where
  job : Job
  status : Status
  progression : Progression
  result : List Nat
deriving DecidableEq, Repr

/-- The job store: mapping from job id to record, modelled as an
association list (the in-memory backend's map, module missing from the
snapshot). -/
abbrev Store := List (Nat × JobRecord)

/-- Lookup of a record by id. -/
def Store.find : Store → Nat → Option JobRecord
  | [], _ => none
  | (k, r) :: rest, id => if k = id then some r else Store.find rest id

/-- Replacement of the record stored under an id (no-op when absent). -/
def Store.update : Store → Nat → JobRecord → Store
  | [], _, _ => []
  | (k, r) :: rest, id, r2 =>
      if k = id then (k, r2) :: rest else (k, r) :: Store.update rest id r2

/-- Modelled from the spec: the legal edges of the status DAG
`Pending → Ready → Running → Finished(*)`, with `Pending → Finished(Error)`
legal on admission-time failures and no back-transitions. -/
def legalTransition : Status → Status → Bool
  | .pending, .ready => true
  | .pending, .finished .error => true
  | .ready, .running => true
  | .running, .finished _ => true
  | _, _ => false

/-- Modelled from the spec: the backend operation `schedule(job)` of the
missing `memory_backend` module — insert a new record in status `Pending`
with default progression and empty result bytes; fails `AlreadyExists` if
the id is known. -/
def schedule (st : Store) (j : Job) : Except Error Store :=
  match st.find j.id with
  | some _ => .error .alreadyExists
  | none => .ok ((j.id, ⟨j, .pending, ⟨0, 0⟩, []⟩) :: st)

/-- Modelled from the spec: the backend operation `set_status(id, s)` —
transition the record's status; fails `UnknownJob` if absent,
`IllegalTransition` if `s` violates the DAG. -/
def set_status (st : Store) (id : Nat) (s : Status) : Except Error Store :=
  match st.find id with
  | none => .error .unknownJob
  | some rec =>
      if legalTransition rec.status s then
        .ok (st.update id { rec with status := s })
      else
        .error .illegalTransition

/-- Modelled from the spec: the backend operation `set_steps(id, n)` —
update the record's `Progression.steps` to `n`; if `step > n`, clamp `step`
to `n`; fails `UnknownJob` if absent. -/
def set_steps (st : Store) (id : Nat) (n : Nat) : Except Error Store :=
  match st.find id with
  | none => .error .unknownJob
  | some rec =>
      .ok (st.update id { rec with progression := ⟨min rec.progression.step n, n⟩ })

/-- Modelled from the spec: the backend operation `set_step(id, n)` —
update the record's `Progression.step`, clamped to `[0, steps]`; fails
`UnknownJob` if absent. -/
def set_step (st : Store) (id : Nat) (n : Nat) : Except Error Store :=
  match st.find id with
  | none => .error .unknownJob
  | some rec =>
      .ok (st.update id { rec with progression := ⟨min n rec.progression.steps, rec.progression.steps⟩ })

/-- Observable events of a dispatcher execution: an invocation of the
notification sink, a status the store observes for a job (on admission or
on a completed transition), and the invocation of a job's routine. -/
inductive Event
  | notify (n : Notification)
  | statusObserved (id : Nat) (s : Status)
  | routineInvoked (id : Nat)
deriving DecidableEq, Repr

/-- The `let _ = op.map_err(|e| notification_handler(Error(e)))` pattern of
`job_queue.rs`: on success the store advances and the given events are
observed, on failure the store is unchanged and the error goes to the
notification sink. -/
def applyStep (st : Store) (r : Except Error Store) (evOk : List Event) :
    Store × List Event :=
  match r with
  | .ok st2 => (st2, evOk)
  | .error e => (st, [.notify (.error e)])

/-- Modelled from the spec: the backend operation `run(id, channel)` of the
missing `memory_backend` module — look up the record and invoke its
routine; on success with payload `b` the record's result bytes are set to
`b` and `b` is returned; on failure the routine's error is returned (the
caller reports it to the sink); fails `UnknownJob` if the record is absent,
in which case no routine is invoked. -/
def run (st : Store) (id : Nat) : Except Error (Store × List Nat) × List Event :=
  match st.find id with
  | none => (.error .unknownJob, [])
  | some rec =>
      match rec.job.routine with
      | .ok b => (.ok (st.update id { rec with result := b }, b), [.routineInvoked id])
      | .err e => (.error e, [.routineInvoked id])

/-- The result status a routine outcome leads to. -/
def rsOf : RoutineResult → ResultStatus
  | .ok _ => .success
  | .err _ => .error

/-- Embedding of the task spawned by `process_job`
(src/src/job_queue.rs lines 433-448): set the status to `Running`, run the
routine, then set the final status. The final `set_status(.., Finished)` of
the source carries the routine's result status, modelled from the spec
(`Finished(Success)` after a successful run, `Finished(Error)` after a
failed one, as the crate's tests require); each step's error goes to the
notification sink. -/
def runSpawnedTask (st : Store) (id : Nat) : Store × List Event :=
  let (st1, e1) := applyStep st (set_status st id .running) [.statusObserved id .running]
  match run st1 id with
  | (.ok (st2, _b), er) =>
      let (st3, e3) := applyStep st2 (set_status st2 id (.finished .success))
        [.statusObserved id (.finished .success)]
      (st3, e1 ++ er ++ e3)
  | (.error e, er) =>
      let (st3, e3) := applyStep st1 (set_status st1 id (.finished .error))
        [.statusObserved id (.finished .error)]
      (st3, e1 ++ er ++ [.notify (.error e)] ++ e3)

/-- Embedding of `process_job` (src/src/job_queue.rs lines 408-451): admit
the job to the store (`schedule`), transition it to `Ready`, then spawn the
task that runs it; every step's error is reported to the notification sink
and does not stop the remaining steps. The spawned task is serialized after
the admission block by the backend lock; its events follow the admission
events in the trace. -/
def process_job (st : Store) (j : Job) : Store × List Event :=
  let (st1, e1) := applyStep st (schedule st j) [.statusObserved j.id .pending]
  let (st2, e2) := applyStep st1 (set_status st1 j.id .ready) [.statusObserved j.id .ready]
  let (st3, e3) := runSpawnedTask st2 j.id
  (st3, e1 ++ e2 ++ e3)

/-- Embedding of `process_command` (src/src/job_queue.rs lines 368-399):
`SetSteps` and `SetStep` update the store through the backend, with errors
reported to the notification sink; any other command (`Stop`) does
nothing. -/
def process_command (st : Store) (c : Cmd) : Store × List Event :=
  match c with
  | .setSteps id n => applyStep st (set_steps st id n) []
  | .setStep id n => applyStep st (set_step st id n) []
  | .stop => (st, [])

/-- Embedding of `process_message` (src/src/job_queue.rs lines 335-360):
dispatch on the message kind; errors raised by `process_job` or
`process_command` are mapped to notifications (already folded into the two
functions here) and never escape. -/
def process_message (st : Store) (m : Message) : Store × List Event :=
  match m with
  | .job j => process_job st j
  | .command c => process_command st c

/-- Sequential processing of a list of messages through `process_message`,
accumulating the event trace. -/
def processAll (st : Store) : List Message → Store × List Event
  | [] => (st, [])
  | m :: rest =>
      let (st1, e1) := process_message st m
      let (st2, e2) := processAll st1 rest
      (st2, e1 ++ e2)

/-- Embedding of the dispatcher loop spawned by `start`
(src/src/job_queue.rs lines 154-178): receive messages in order; exit when
the channel is closed or a receive error occurs (the end of the list) or
when the received message is `Command(Stop)`; process every other message
with `process_message`. -/
def dispatcherRun (st : Store) : List Message → Store × List Event
  | [] => (st, [])
  | m :: rest =>
      if m = Message.command Cmd.stop then (st, [])
      else
        let (st1, e1) := process_message st m
        let (st2, e2) := dispatcherRun st1 rest
        (st2, e1 ++ e2)

/-- States of the thread running the job queue
(src/src/job_queue.rs lines 41-53). -/
inductive State
  | idle
  | running
  | stopping
deriving DecidableEq, Repr

/-- The queue facade (src/src/job_queue.rs lines 64-85): its state machine
state, the channel of messages sent into `tx` so far, and whether a join
handle is present. The backend, runtime and notification handler fields
are modelled separately (`Store`, the event traces above). -/
structure JobQueue where
  state : State
  channel : List Message
  join_handle : Bool
deriving DecidableEq, Repr

/-- Embedding of `JobQueue::new` (src/src/job_queue.rs lines 99-123): a
zero thread-pool size is rejected with `InvalidThreadPoolSize`; otherwise a
fresh queue in the default state `Idle`, with no join handle and an empty
channel (tokio runtime construction is modelled as succeeding). -/
def new (thread_pool_size : Nat) : Except Error JobQueue :=
  if thread_pool_size = 0 then
    .error .invalidThreadPoolSize
  else
    .ok ⟨.idle, [], false⟩

/-- Embedding of `try_starting` (src/src/job_queue.rs lines 299-305). -/
def try_starting (q : JobQueue) : Except Error Unit :=
  match q.state with
  | .running => .error .alreadyRunning
  | .stopping => .error .stopped
  | _ => .ok ()

/-- Embedding of `try_joining` (src/src/job_queue.rs lines 311-317). -/
def try_joining (q : JobQueue) : Except Error Unit :=
  match q.state with
  | .idle => .error .notStarted
  | .running => .error .notStopping
  | _ => .ok ()

/-- Embedding of `try_stopping` (src/src/job_queue.rs lines 323-329). -/
def try_stopping (q : JobQueue) : Except Error Unit :=
  match q.state with
  | .idle => .error .notStarted
  | .stopping => .error .stopped
  | _ => .ok ()

/-- Embedding of `start` (src/src/job_queue.rs lines 145-184): check
`try_starting`, spawn the dispatcher thread (modelled as succeeding),
record the join handle and set the state to `Running`. -/
def start (q : JobQueue) : Except Error JobQueue :=
  match try_starting q with
  | .error e => .error e
  | .ok _ => .ok { q with state := .running, join_handle := true }

/-- Embedding of `stop` (src/src/job_queue.rs lines 215-225): check
`try_stopping`, set the state to `Stopping`, then send `Command(Stop)` on
the channel. The send's outcome is the explicit `sendOk` parameter; note
the state is set to `Stopping` before the send is attempted, so a failed
send returns an error while the state has already changed. -/
def stop (sendOk : Bool) (q : JobQueue) : Except Error Unit × JobQueue :=
  match try_stopping q with
  | .error e => (.error e, q)
  | .ok _ =>
      let q1 := { q with state := State.stopping }
      if sendOk then
        (.ok (), { q1 with channel := q1.channel ++ [Message.command Cmd.stop] })
      else
        (.error .sendFailed, q1)

/-- Embedding of `join` (src/src/job_queue.rs lines 190-208): check
`try_joining`; join the dispatcher thread when a handle is present
(modelled as succeeding), otherwise fail `MissingJoinHandle`. -/
def join (q : JobQueue) : Except Error Unit :=
  match try_joining q with
  | .error e => .error e
  | .ok _ => if q.join_handle then .ok () else .error .missingJoinHandle

/-- Embedding of `enqueue` (src/src/job_queue.rs lines 234-244): send a
`Job` message on the channel and return the job's id. The function performs
no facade-state check; the send's outcome is the explicit `sendOk`
parameter. -/
def enqueue (sendOk : Bool) (q : JobQueue) (j : Job) : Except Error Nat × JobQueue :=
  if sendOk then
    (.ok j.id, { q with channel := q.channel ++ [Message.job j] })
  else
    (.error .sendFailed, q)

/-- The statuses the store observes for a given job id in an event trace,
in order. -/
def statusesOf (id : Nat) : List Event → List Status
  | [] => []
  | .statusObserved i s :: rest =>
      if i = id then s :: statusesOf id rest else statusesOf id rest
  | _ :: rest => statusesOf id rest

/-- The notification-sink invocations contained in an event trace, in
order. -/
def sinkCalls : List Event → List Notification
  | [] => []
  | .notify n :: rest => n :: sinkCalls rest
  | _ :: rest => sinkCalls rest

theorem Store.find_cons_self (st : Store) (id : Nat) (r : JobRecord) :
    Store.find ((id, r) :: st) id = some r := by
  simp [Store.find]

theorem Store.update_cons_self (st : Store) (id : Nat) (r r2 : JobRecord) :
    Store.update ((id, r) :: st) id r2 = (id, r2) :: st := by
  simp [Store.update]

theorem Store.find_update_self (st : Store) (id : Nat) (r2 : JobRecord)
    (h : (st.find id).isSome) : (st.update id r2).find id = some r2 := by
  induction st with
  | nil => simp [Store.find] at h
  | cons p rest ih =>
      obtain ⟨k, r⟩ := p
      by_cases hk : k = id
      · subst hk
        simp [Store.update, Store.find]
      · simp [Store.update, Store.find, hk] at h ⊢
        exact ih h

theorem Store.find_mem (st : Store) (id : Nat) (rec : JobRecord)
    (h : st.find id = some rec) : (id, rec) ∈ st := by
  induction st with
  | nil => simp [Store.find] at h
  | cons p rest ih =>
      obtain ⟨k, r⟩ := p
      by_cases hk : k = id
      · subst hk
        simp [Store.find] at h
        simp [h]
      · simp [Store.find, hk] at h
        exact List.mem_cons_of_mem _ (ih h)

theorem Store.mem_update (st : Store) (id : Nat) (r2 : JobRecord)
    (p : Nat × JobRecord) (h : p ∈ st.update id r2) : p ∈ st ∨ p.2 = r2 := by
  induction st with
  | nil => simp [Store.update] at h
  | cons q rest ih =>
      obtain ⟨k, r⟩ := q
      by_cases hk : k = id
      · subst hk
        simp [Store.update] at h
        rcases h with h | h
        · exact Or.inr (by simp [h])
        · exact Or.inl (List.mem_cons_of_mem _ h)
      · simp [Store.update, hk] at h
        rcases h with h | h
        · exact Or.inl (by simp [h])
        · rcases ih h with h2 | h2
          · exact Or.inl (List.mem_cons_of_mem _ h2)
          · exact Or.inr h2

theorem statusesOf_append (id : Nat) (l1 l2 : List Event) :
    statusesOf id (l1 ++ l2) = statusesOf id l1 ++ statusesOf id l2 := by
  induction l1 with
  | nil => rfl
  | cons e rest ih =>
      cases e with
      | notify n => simp [statusesOf, ih]
      | routineInvoked i => simp [statusesOf, ih]
      | statusObserved i s =>
          by_cases hi : i = id <;> simp [statusesOf, hi, ih]

theorem sinkCalls_append (l1 l2 : List Event) :
    sinkCalls (l1 ++ l2) = sinkCalls l1 ++ sinkCalls l2 := by
  induction l1 with
  | nil => rfl
  | cons e rest ih =>
      cases e with
      | notify n => simp [sinkCalls, ih]
      | routineInvoked i => simp [sinkCalls, ih]
      | statusObserved i s => simp [sinkCalls, ih]

/-- C5: The dispatcher loop exits exactly when the channel is closed, a
receive error occurs (the end of the received message list), or the
received message is the `Stop` command; every other message is dispatched
through `process_message`, whose errors are turned into notification-sink
calls inside it and never abort the loop — so the run is exactly the
unconditional sequential processing of the prefix of messages strictly
before the first `Stop`. -/
theorem dispatcher_loop_exits_on_stop (st : Store) (msgs : List Message) :
    dispatcherRun st msgs =
      processAll st (msgs.takeWhile fun m => decide ¬(m = Message.command Cmd.stop)) := by
  induction msgs generalizing st with
  | nil => rfl
  | cons m rest ih =>
      by_cases h : m = Message.command Cmd.stop
      · subst h
        simp [dispatcherRun, List.takeWhile, processAll]
      · simp [dispatcherRun, List.takeWhile, h, processAll, ih]

/-- C1: The queue facade implements the three-state machine exactly: in
state `Idle`, `start` succeeds and the state becomes `Running` while `stop`
and `join` fail with `NotStarted`; in state `Running`, `start` fails with
`AlreadyRunning`, `stop` succeeds and the state becomes `Stopping`, and
`join` fails with `NotStopping`; in state `Stopping`, `start` and `stop`
fail with `Stopped` and `join` is allowed (`try_joining` passes, and `join`
succeeds whenever the join handle is present). -/
theorem facade_state_machine (q : JobQueue) (b : Bool) :
    (q.state = State.idle →
      start q = .ok { q with state := .running, join_handle := true } ∧
      (stop b q).1 = .error .notStarted ∧ (stop b q).2 = q ∧
      join q = .error .notStarted) ∧
    (q.state = State.running →
      start q = .error .alreadyRunning ∧
      (stop true q).1 = .ok () ∧ (stop true q).2.state = .stopping ∧
      join q = .error .notStopping) ∧
    (q.state = State.stopping →
      start q = .error .stopped ∧
      (stop b q).1 = .error .stopped ∧ (stop b q).2 = q ∧
      try_joining q = .ok () ∧
      (q.join_handle = true → join q = .ok ())) := by
  refine ⟨fun h => ?_, fun h => ?_, fun h => ?_⟩ <;>
    simp [start, stop, join, try_starting, try_stopping, try_joining, h]

/-- Witness for C1: the state machine theorem at concrete queues in each of
the three states. -/
theorem facade_state_machine_witness :
    start ⟨.idle, [], false⟩ = .ok ⟨.running, [], true⟩ ∧
    join ⟨.idle, [], false⟩ = .error .notStarted ∧
    start ⟨.running, [], true⟩ = .error .alreadyRunning ∧
    (stop true ⟨.running, [], true⟩).2.state = .stopping ∧
    (stop true ⟨.stopping, [], true⟩).1 = .error .stopped ∧
    join ⟨.stopping, [], true⟩ = .ok () :=
  ⟨((facade_state_machine ⟨.idle, [], false⟩ true).1 rfl).1,
   ((facade_state_machine ⟨.idle, [], false⟩ true).1 rfl).2.2.2,
   ((facade_state_machine ⟨.running, [], true⟩ true).2.1 rfl).1,
   ((facade_state_machine ⟨.running, [], true⟩ true).2.1 rfl).2.2.1,
   ((facade_state_machine ⟨.stopping, [], true⟩ true).2.2 rfl).2.1,
   ((facade_state_machine ⟨.stopping, [], true⟩ true).2.2 rfl).2.2.2.2 rfl⟩

/-- C8: `new(pool_size, handler)` with `pool_size = 0` fails with
`InvalidThreadPoolSize`, and with `pool_size ≥ 1` returns a fresh queue
whose state is `Idle`. -/
theorem new_pool_size (n : Nat) (h : 1 ≤ n) :
    new 0 = .error .invalidThreadPoolSize ∧
    new n = .ok ⟨.idle, [], false⟩ := by
  constructor
  · rfl
  · have hn : n ≠ 0 := by omega
    simp [new, hn]

/-- Witness for C8 at pool size 3. -/
theorem new_pool_size_witness :
    new 0 = .error .invalidThreadPoolSize ∧ new 3 = .ok ⟨.idle, [], false⟩ :=
  new_pool_size 3 (by decide)

/-- C9: `stop()` called in state `Running` sets the facade state to
`Stopping` before attempting to send the `Stop` command, so if the channel
send fails, `stop` returns an error but the state is nevertheless
`Stopping`, and subsequent `start` or `stop` calls fail with `Stopped`. -/
theorem stop_not_atomic_on_send_failure (q : JobQueue) (b : Bool)
    (h : q.state = State.running) :
    (stop false q).1 = .error .sendFailed ∧
    (stop false q).2 = { q with state := State.stopping } ∧
    start (stop false q).2 = .error .stopped ∧
    (stop b (stop false q).2).1 = .error .stopped := by
  simp [stop, start, try_stopping, try_starting, h]

/-- Witness for C9 at a concrete running queue. -/
theorem stop_not_atomic_on_send_failure_witness :
    (stop false ⟨.running, [], true⟩).1 = .error .sendFailed ∧
    (stop false ⟨.running, [], true⟩).2 = ⟨.stopping, [], true⟩ ∧
    start (stop false ⟨.running, [], true⟩).2 = .error .stopped ∧
    (stop true (stop false ⟨.running, [], true⟩).2).1 = .error .stopped :=
  stop_not_atomic_on_send_failure ⟨.running, [], true⟩ true rfl

/-- Counterexample for C4: the claim states that in any state other than
`Running` the `enqueue` operation fails with an error; but `enqueue`
performs no facade-state check, and on a queue in state `Idle` (with the
channel send succeeding, as it does while the facade holds the receiver
alive) it returns `Ok` with the job's id. -/
theorem enqueue_succeeds_in_idle :
    (enqueue true ⟨.idle, [], false⟩ ⟨1, .ok []⟩).1 = .ok 1 ∧
    (⟨.idle, [], false⟩ : JobQueue).state ≠ State.running := by
  constructor
  · rfl
  · decide

/-- C4 (amended): `enqueue` performs no facade-state check: in every
facade state, when the channel send succeeds it returns the `JobId` of the
enqueued job and appends the `Job` message to the channel (and when the
send fails it returns the send error leaving the queue unchanged); the job
reaches the store with status `Pending` once the dispatcher processes the
message. -/
theorem enqueue_no_state_check (q : JobQueue) (j : Job) (st : Store)
    (h : st.find j.id = none) :
    (enqueue true q j).1 = .ok j.id ∧
    (enqueue true q j).2 = { q with channel := q.channel ++ [Message.job j] } ∧
    enqueue false q j = (.error .sendFailed, q) ∧
    Event.statusObserved j.id Status.pending ∈ (process_job st j).2 := by
  refine ⟨rfl, rfl, rfl, ?_⟩
  simp [process_job, schedule, h, applyStep]

/-- Witness for C4's amended theorem: a concrete idle queue, a concrete
job and the empty store. -/
theorem enqueue_no_state_check_witness :
    (enqueue true ⟨.idle, [], false⟩ ⟨7, .ok [1]⟩).1 = .ok 7 ∧
    Event.statusObserved 7 Status.pending ∈ (process_job [] ⟨7, .ok [1]⟩).2 :=
  ⟨(enqueue_no_state_check ⟨.idle, [], false⟩ ⟨7, .ok [1]⟩ [] rfl).1,
   (enqueue_no_state_check ⟨.idle, [], false⟩ ⟨7, .ok [1]⟩ [] rfl).2.2.2⟩

/-- C2: For a job whose id is not yet in the store, processing its `Job`
message admits it with status `Pending`, transitions it to `Ready` before
the routine is handed to the pool, to `Running` before the routine is
invoked, and to `Finished` when it returns — so the sequence of statuses
the store observes for the record is exactly `Pending, Ready, Running,
Finished(*)` (every point-in-time observation is a prefix of it) and no
back-transition occurs. -/
theorem job_status_trace (st : Store) (j : Job) (h : st.find j.id = none) :
    statusesOf j.id (process_job st j).2 =
      [Status.pending, Status.ready, Status.running, Status.finished (rsOf j.routine)] := by
  cases hr : j.routine with
  | ok b =>
      simp [process_job, schedule, h, applyStep, set_status, Store.find_cons_self,
        Store.update_cons_self, legalTransition, runSpawnedTask, run, hr,
        statusesOf, statusesOf_append, rsOf]
  | err e =>
      simp [process_job, schedule, h, applyStep, set_status, Store.find_cons_self,
        Store.update_cons_self, legalTransition, runSpawnedTask, run, hr,
        statusesOf, statusesOf_append, rsOf]

/-- Witness for C2: a fresh job with a successful routine on the empty
store. -/
theorem job_status_trace_witness :
    statusesOf 2 (process_job [] ⟨2, .ok [7]⟩).2 =
      [Status.pending, Status.ready, Status.running, Status.finished .success] :=
  job_status_trace [] ⟨2, .ok [7]⟩ rfl

/-- C3: When a fresh job's routine returns successfully with payload `b`,
the record's result bytes are set to `b` and its status to
`Finished(Success)`; when the routine returns an error, the record's status
is set to `Finished(Error)`, the error is emitted via the notification
sink, and the record's result bytes stay empty. -/
theorem job_result_and_final_status (st : Store) (j : Job) (h : st.find j.id = none) :
    (∀ b, j.routine = .ok b →
      (process_job st j).1.find j.id = some ⟨j, .finished .success, ⟨0, 0⟩, b⟩) ∧
    (∀ e, j.routine = .err e →
      (process_job st j).1.find j.id = some ⟨j, .finished .error, ⟨0, 0⟩, []⟩ ∧
      Event.notify (.error e) ∈ (process_job st j).2) := by
  constructor
  · intro b hb
    simp [process_job, schedule, h, applyStep, set_status, Store.find_cons_self,
      Store.update_cons_self, legalTransition, runSpawnedTask, run, hb]
  · intro e he
    simp [process_job, schedule, h, applyStep, set_status, Store.find_cons_self,
      Store.update_cons_self, legalTransition, runSpawnedTask, run, he]

/-- Witness for C3: one fresh job whose routine succeeds with payload
`[9]`, and one whose routine raises a custom error. -/
theorem job_result_and_final_status_witness :
    (process_job [] ⟨3, .ok [9]⟩).1.find 3 =
      some ⟨⟨3, .ok [9]⟩, .finished .success, ⟨0, 0⟩, [9]⟩ ∧
    (process_job [] ⟨4, .err (.custom "boom")⟩).1.find 4 =
      some ⟨⟨4, .err (.custom "boom")⟩, .finished .error, ⟨0, 0⟩, []⟩ ∧
    Event.notify (.error (.custom "boom")) ∈ (process_job [] ⟨4, .err (.custom "boom")⟩).2 :=
  ⟨(job_result_and_final_status [] ⟨3, .ok [9]⟩ rfl).1 [9] rfl,
   ((job_result_and_final_status [] ⟨4, .err (.custom "boom")⟩ rfl).2 (.custom "boom") rfl).1,
   ((job_result_and_final_status [] ⟨4, .err (.custom "boom")⟩ rfl).2 (.custom "boom") rfl).2⟩

/-- C10: When the dispatcher processes a `Job` message and admission to the
store fails because the id already exists, the error is only reported to
the notification sink: the dispatcher still attempts the transition to
`Ready` (which completes, here from a `Pending` record) and still spawns
the task that invokes the stored routine, so admission failure does not
prevent execution. -/
theorem admission_failure_still_runs (st : Store) (j : Job) (rec : JobRecord)
    (hfind : st.find j.id = some rec) (hst : rec.status = Status.pending) :
    Event.notify (.error .alreadyExists) ∈ (process_job st j).2 ∧
    Event.statusObserved j.id Status.ready ∈ (process_job st j).2 ∧
    Event.routineInvoked j.id ∈ (process_job st j).2 := by
  have h1 : schedule st j = .error .alreadyExists := by simp [schedule, hfind]
  have h2 : set_status st j.id .ready
      = .ok (st.update j.id { rec with status := Status.ready }) := by
    simp [set_status, hfind, hst, legalTransition]
  have hf1 : (st.update j.id { rec with status := Status.ready }).find j.id
      = some { rec with status := Status.ready } :=
    Store.find_update_self _ _ _ (by simp [hfind])
  have h3 : set_status (st.update j.id { rec with status := Status.ready }) j.id .running
      = .ok ((st.update j.id { rec with status := Status.ready }).update j.id
          { rec with status := Status.running }) := by
    simp [set_status, hf1, legalTransition]
  have hf2 : ((st.update j.id { rec with status := Status.ready }).update j.id
      { rec with status := Status.running }).find j.id
      = some { rec with status := Status.running } :=
    Store.find_update_self _ _ _ (by simp [hf1])
  cases hr : rec.job.routine with
  | ok b =>
      simp [process_job, runSpawnedTask, applyStep, h1, h2, h3, run, hf2, hr]
  | err e =>
      simp [process_job, runSpawnedTask, applyStep, h1, h2, h3, run, hf2, hr]

/-- Witness for C10: a store already holding a pending record under id 5
and a second job with the same id. -/
theorem admission_failure_still_runs_witness :
    Event.notify (.error .alreadyExists) ∈
      (process_job [(5, ⟨⟨5, .ok [1]⟩, .pending, ⟨0, 0⟩, []⟩)] ⟨5, .ok [2]⟩).2 ∧
    Event.statusObserved 5 Status.ready ∈
      (process_job [(5, ⟨⟨5, .ok [1]⟩, .pending, ⟨0, 0⟩, []⟩)] ⟨5, .ok [2]⟩).2 ∧
    Event.routineInvoked 5 ∈
      (process_job [(5, ⟨⟨5, .ok [1]⟩, .pending, ⟨0, 0⟩, []⟩)] ⟨5, .ok [2]⟩).2 :=
  admission_failure_still_runs [(5, ⟨⟨5, .ok [1]⟩, .pending, ⟨0, 0⟩, []⟩)]
    ⟨5, .ok [2]⟩ ⟨⟨5, .ok [1]⟩, .pending, ⟨0, 0⟩, []⟩ rfl rfl

/-- The progression invariant of the spec: every record in the store has
`step ≤ steps` (the lower bound `0 ≤ step` is inherent to `Nat`). -/
def Inv (st : Store) : Prop :=
  ∀ p ∈ st, p.2.progression.step ≤ p.2.progression.steps

theorem Inv_update (st : Store) (id : Nat) (r2 : JobRecord) (hInv : Inv st)
    (h2 : r2.progression.step ≤ r2.progression.steps) : Inv (st.update id r2) := by
  intro p hp
  rcases Store.mem_update st id r2 p hp with h | h
  · exact hInv p h
  · rw [h]
    exact h2

theorem Inv_schedule (st : Store) (j : Job) (st2 : Store) (hInv : Inv st)
    (h : schedule st j = .ok st2) : Inv st2 := by
  cases hf : st.find j.id with
  | some r => simp [schedule, hf] at h
  | none =>
      simp [schedule, hf] at h
      rw [← h]
      intro p hp
      rcases List.mem_cons.mp hp with h2 | h2
      · rw [h2]
      · exact hInv p h2

theorem Inv_set_status (st : Store) (id : Nat) (s : Status) (st2 : Store)
    (hInv : Inv st) (h : set_status st id s = .ok st2) : Inv st2 := by
  cases hf : st.find id with
  | none => simp [set_status, hf] at h
  | some rec =>
      by_cases hl : legalTransition rec.status s = true
      · simp [set_status, hf, hl] at h
        rw [← h]
        exact Inv_update st id _ hInv (hInv (id, rec) (Store.find_mem st id rec hf))
      · simp [set_status, hf, hl] at h

theorem Inv_set_steps (st : Store) (id n : Nat) (st2 : Store)
    (hInv : Inv st) (h : set_steps st id n = .ok st2) : Inv st2 := by
  cases hf : st.find id with
  | none => simp [set_steps, hf] at h
  | some rec =>
      simp [set_steps, hf] at h
      rw [← h]
      exact Inv_update st id _ hInv (Nat.min_le_right _ _)

theorem Inv_set_step (st : Store) (id n : Nat) (st2 : Store)
    (hInv : Inv st) (h : set_step st id n = .ok st2) : Inv st2 := by
  cases hf : st.find id with
  | none => simp [set_step, hf] at h
  | some rec =>
      simp [set_step, hf] at h
      rw [← h]
      exact Inv_update st id _ hInv (Nat.min_le_right _ _)

theorem Inv_run (st : Store) (id : Nat) (st2 : Store) (b : List Nat)
    (hInv : Inv st) (h : (run st id).1 = .ok (st2, b)) : Inv st2 := by
  cases hf : st.find id with
  | none => simp [run, hf] at h
  | some rec =>
      cases hr : rec.job.routine with
      | ok b2 =>
          simp [run, hf, hr] at h
          rw [← h.1]
          exact Inv_update st id _ hInv (hInv (id, rec) (Store.find_mem st id rec hf))
      | err e => simp [run, hf, hr] at h

theorem Inv_applyStep (st : Store) (r : Except Error Store) (ev : List Event)
    (hInv : Inv st) (hok : ∀ st2, r = .ok st2 → Inv st2) :
    Inv (applyStep st r ev).1 := by
  cases r with
  | ok st2 => exact hok st2 rfl
  | error e => exact hInv

theorem Inv_runSpawnedTask (st : Store) (id : Nat) (hInv : Inv st) :
    Inv (runSpawnedTask st id).1 := by
  have h1 : Inv (applyStep st (set_status st id .running) [.statusObserved id .running]).1 :=
    Inv_applyStep _ _ _ hInv (fun st2 h => Inv_set_status _ _ _ _ hInv h)
  unfold runSpawnedTask
  rcases hrun : run (applyStep st (set_status st id .running) [.statusObserved id .running]).1 id
    with ⟨r, er⟩
  cases r with
  | ok p =>
      obtain ⟨st2, b⟩ := p
      have h2 : Inv st2 := Inv_run _ id st2 b h1 (by rw [hrun])
      simp only [hrun]
      exact Inv_applyStep _ _ _ h2 (fun st3 h => Inv_set_status _ _ _ _ h2 h)
  | error e =>
      simp only [hrun]
      exact Inv_applyStep _ _ _ h1 (fun st3 h => Inv_set_status _ _ _ _ h1 h)

theorem Inv_process_job (st : Store) (j : Job) (hInv : Inv st) :
    Inv (process_job st j).1 := by
  have h1 : Inv (applyStep st (schedule st j) [.statusObserved j.id .pending]).1 :=
    Inv_applyStep _ _ _ hInv (fun st2 h => Inv_schedule _ _ _ hInv h)
  have h2 : Inv (applyStep
      (applyStep st (schedule st j) [.statusObserved j.id .pending]).1
      (set_status (applyStep st (schedule st j) [.statusObserved j.id .pending]).1 j.id .ready)
      [.statusObserved j.id .ready]).1 :=
    Inv_applyStep _ _ _ h1 (fun st2 h => Inv_set_status _ _ _ _ h1 h)
  exact Inv_runSpawnedTask _ j.id h2

theorem Inv_process_command (st : Store) (c : Cmd) (hInv : Inv st) :
    Inv (process_command st c).1 := by
  cases c with
  | setSteps id n =>
      exact Inv_applyStep _ _ _ hInv (fun st2 h => Inv_set_steps _ _ _ _ hInv h)
  | setStep id n =>
      exact Inv_applyStep _ _ _ hInv (fun st2 h => Inv_set_step _ _ _ _ hInv h)
  | stop => exact hInv

theorem Inv_process_message (st : Store) (m : Message) (hInv : Inv st) :
    Inv (process_message st m).1 := by
  cases m with
  | job j => exact Inv_process_job st j hInv
  | command c => exact Inv_process_command st c hInv

theorem Inv_processAll (st : Store) (msgs : List Message) (hInv : Inv st) :
    Inv (processAll st msgs).1 := by
  induction msgs generalizing st with
  | nil => exact hInv
  | cons m rest ih => exact ih _ (Inv_process_message st m hInv)

theorem Inv_dispatcherRun (st : Store) (msgs : List Message) (hInv : Inv st) :
    Inv (dispatcherRun st msgs).1 := by
  induction msgs generalizing st with
  | nil => exact hInv
  | cons m rest ih =>
      by_cases h : m = Message.command Cmd.stop
      · subst h
        exact hInv
      · simp only [dispatcherRun, if_neg h]
        exact ih _ (Inv_process_message st m hInv)

/-- C7: `SetSteps(id, n)` sets the record's `steps` to `n` and clamps
`step` down to `n` when `step > n` (that is, `step` becomes
`min step n`); `SetStep(id, n)` sets `step` clamped to `[0, steps]` (that
is, `min n steps`); and on a store satisfying `0 ≤ step ≤ steps` for every
record, the invariant holds at every observable moment of a dispatcher run,
i.e. after every prefix of the processed messages. -/
theorem progression_clamped_and_invariant (st : Store) (id n : Nat)
    (rec : JobRecord) (msgs : List Message)
    (hfind : st.find id = some rec) (hInv : Inv st) :
    set_steps st id n
      = .ok (st.update id { rec with progression := ⟨min rec.progression.step n, n⟩ }) ∧
    set_step st id n
      = .ok (st.update id
          { rec with progression := ⟨min n rec.progression.steps, rec.progression.steps⟩ }) ∧
    (∀ k, Inv (dispatcherRun st (msgs.take k)).1) := by
  refine ⟨by simp [set_steps, hfind], by simp [set_step, hfind], fun k => ?_⟩
  exact Inv_dispatcherRun st (msgs.take k) hInv

/-- Witness for C7: a one-record store with progression `(0, 0)` and a
message list with one `SetSteps` and one `SetStep` command. -/
theorem progression_clamped_and_invariant_witness :
    set_steps [(1, ⟨⟨1, .ok []⟩, .pending, ⟨0, 0⟩, []⟩)] 1 5
      = .ok [(1, ⟨⟨1, .ok []⟩, .pending, ⟨0, 5⟩, []⟩)] ∧
    set_step [(1, ⟨⟨1, .ok []⟩, .pending, ⟨0, 0⟩, []⟩)] 1 9
      = .ok [(1, ⟨⟨1, .ok []⟩, .pending, ⟨0, 0⟩, []⟩)] ∧
    Inv (dispatcherRun [(1, ⟨⟨1, .ok []⟩, .pending, ⟨0, 0⟩, []⟩)]
      ([Message.command (Cmd.setSteps 1 5), Message.command (Cmd.setStep 1 9)].take 2)).1 := by
  have h := progression_clamped_and_invariant
    [(1, ⟨⟨1, .ok []⟩, .pending, ⟨0, 0⟩, []⟩)] 1 5 ⟨⟨1, .ok []⟩, .pending, ⟨0, 0⟩, []⟩
    [Message.command (Cmd.setSteps 1 5), Message.command (Cmd.setStep 1 9)] rfl
    (by unfold Inv; decide)
  have h2 := progression_clamped_and_invariant
    [(1, ⟨⟨1, .ok []⟩, .pending, ⟨0, 0⟩, []⟩)] 1 9 ⟨⟨1, .ok []⟩, .pending, ⟨0, 0⟩, []⟩
    [] rfl (by unfold Inv; decide)
  exact ⟨h.1, h2.2.1, h.2.2 2⟩

/-- Counterexample for C6: the claim states that the notification sink is
invoked with a `Status(id, s)` notification on every completed status
transition and with `Progression` notifications on accepted progression
updates; but on a concrete run in which a fresh job is admitted and goes
through all four statuses (four completed transitions), the sink is
invoked zero times — the dispatcher's `Notification` type has only the
`Error` variant and no notification at all is emitted on the success
path. -/
theorem transitions_complete_without_sink_calls :
    statusesOf 1 (process_job [] ⟨1, .ok [42]⟩).2 =
      [Status.pending, Status.ready, Status.running, Status.finished .success] ∧
    sinkCalls (process_job [] ⟨1, .ok [42]⟩).2 = [] := by
  constructor <;> rfl

/-- C6 (amended): The notification sink is invoked only with `Error(e)`
notifications for recoverable errors: the `Notification` type of the
dispatcher has the single variant `Error`, so every sink invocation in any
dispatcher run carries an error value, and no `Status` or `Progression`
notification is ever emitted. -/
theorem sink_receives_only_errors (st : Store) (msgs : List Message)
    (n : Notification) (h : n ∈ sinkCalls (dispatcherRun st msgs).2) :
    ∃ e, n = Notification.error e := by
  cases n with
  | error e => exact ⟨e, rfl⟩

/-- Witness for C6's amended theorem: a `SetStep` command for an unknown
job makes the dispatcher invoke the sink with an `UnknownJob` error. -/
theorem sink_receives_only_errors_witness :
    Notification.error Error.unknownJob ∈
      sinkCalls (dispatcherRun [] [Message.command (Cmd.setStep 5 1)]).2 ∧
    ∃ e, Notification.error Error.unknownJob = Notification.error e :=
  ⟨by decide,
   sink_receives_only_errors [] [Message.command (Cmd.setStep 5 1)] _ (by decide)⟩

end CsJobs
